import Mathlib

/-!
Shallow embedding of the enrollment engine of `ziti/enroll/enroll.go`
(NetFoundry ziti-sdk-golang).

Every definition below is translated from the Go source.  External effects
(network responses, the filesystem, the random source, the JSON library, the
PKCS7 library) are modelled as explicit environment/oracle records that the
embedded functions consume; the control flow, branch conditions and produced
values follow the Go code line by line.  Go panics (nil interface type
assertions, nil pointer dereferences, log.Panic) are modelled as an explicit
`panicked` outcome.
-/

namespace ZitiEnroll

/-- An X.509 certificate, abstracted to its identity-relevant data.
Corresponds to `*x509.Certificate` in the source. -/
structure Cert where
  serial : Nat
  publicKey : Nat
deriving DecidableEq, Repr

/-- `x509.CertPool`: an ordered list of certificates. -/
abbrev CertPool := List Cert

/-- `x509.CertPool.AddCert` (Go 1.14): appends the certificate unless it is
already contained in the pool. -/
def CertPool.addCert (p : CertPool) (c : Cert) : CertPool :=
  if c ∈ p then p else p ++ [c]

/-- A transport-level error, i.e. a `*url.Error` as returned by
`http.Client.Post` / `Get`.  `unknownAuthority` records whether the wrapped
error is an `x509.UnknownAuthorityError` (the check performed at
enroll.go:187). -/
structure TransportErr where
  unknownAuthority : Bool
  msg : String
deriving DecidableEq, Repr

/-- A Go `error` value as classified by the retry loop in `Enroll`:
either a `*url.Error` from the HTTP client (`transport`) or an error built
with `errors.New` / `errors.Errorf` (`msg`). -/
inductive GoErr where
  | transport (e : TransportErr)
  | msg (s : String)
deriving DecidableEq, Repr

/-- Outcome of a Go function call that may also panic (nil interface type
assertion, nil pointer dereference). -/
inductive Res (α : Type) where
  | ok (a : α)
  | err (e : GoErr)
  | panicked (m : String)
deriving DecidableEq, Repr

/-- Dynamic JSON value, the data model behind the `gabs` containers used by
`enrollOTT` and `enrollCAAuto`. -/
inductive Json where
  | null
  | bool (b : Bool)
  | num (n : Int)
  | str (s : String)
  | arr (elems : List Json)
  | obj (fields : List (String × Json))

/-- Field lookup in a JSON object (first binding wins), as `gabs` does. -/
def jsonLookup : List (String × Json) → String → Option Json
  | [], _ => none
  | (k, v) :: rest, key => if k = key then some v else jsonLookup rest key

/-- One step of `gabs` path search. -/
def Json.get (j : Json) (key : String) : Option Json :=
  match j with
  | .obj fields => jsonLookup fields key
  | _ => none

/-- `gabs.Container.Search p₁ p₂ …` / `Path "p₁.p₂"`: walk the path, `none`
when a component is missing (gabs returns a nil container). -/
def Json.search (j : Json) : List String → Option Json
  | [] => some j
  | k :: ks =>
    match j.get k with
    | none => none
    | some j' => j'.search ks

/-- `container.Data().(string)`: yields the string when the container holds
one; any other case (nil container, non-string data) makes the Go type
assertion panic, modelled as `none`. -/
def dataString (o : Option Json) : Option String :=
  match o with
  | some (.str s) => some s
  | _ => none

/-- Panic message of a failed `.(string)` type assertion. -/
def interfaceConversionMsg : String :=
  "interface conversion: interface is nil, not string"

/-- The body of an HTTP response: the raw bytes read by `ioutil.ReadAll`
together with the result of `gabs.ParseJSON` on them (`none` = parse error). -/
structure Body where
  raw : String
  parsed : Option Json

/-- An HTTP response as consumed by the enrollment strategies.  `readErr`
models `ioutil.ReadAll(resp.Body)` failing (in which case `body.raw` holds
the partially read bytes used in the error message). -/
structure HttpResp where
  statusCode : Nat
  status : String
  readErr : Bool
  body : Body

/-- `config.EnrollmentClaims` (the fields read by this package).
`signatureCert` is `*x509.Certificate`, nil-able, hence `Option`. -/
structure EnrollmentClaims where
  issuer : String
  enrollmentMethod : String
  enrolmentUrl : String
  signatureCert : Option Cert

/-- The `ID` section of `config.Config`. -/
structure IdentityConfig where
  key : String
  cert : String
  ca : String
deriving DecidableEq, Repr

/-- `config.Config` (the fields written by this package). -/
structure Config where
  ztAPI : String
  id : IdentityConfig
deriving DecidableEq, Repr

/-- `EnrollmentFlags` (enroll.go:49); the jwt fields are not read by
`Enroll` and are omitted. -/
structure EnrollmentFlags where
  token : EnrollmentClaims
  certFile : String
  keyFile : String
  idName : String
  additionalCAs : String

/-- Drop leading whitespace characters. -/
def dropWhitespace : List Char → List Char
  | [] => []
  | c :: cs => if c.isWhitespace then dropWhitespace cs else c :: cs

/-- `strings.TrimSpace`: remove leading and trailing whitespace. -/
def trimSpace (s : String) : String :=
  ⟨(dropWhitespace ((dropWhitespace s.data).reverse)).reverse⟩

/-- `useSystemCasIfEmpty` (enroll.go:229): `none` models returning the nil
pool (fall back to system CAs). -/
def useSystemCasIfEmpty (caPool : CertPool) : Option CertPool :=
  if caPool.length < 1 then none else some caPool

/-- Environment of one `enrollOTT` call: results of the external calls it
makes (`identity.LoadKey`, `x509.CreateCertificateRequest`, `client.Post`). -/
structure OttEnv where
  loadKeyErr : Option String
  csrErr : Option String
  post : Except TransportErr HttpResp

/-- `enrollOTT` (enroll.go:240). -/
def enrollOTT (env : OttEnv) (cfg : Config) (caPool : CertPool) : Res Config :=
  match env.loadKeyErr with
  | some e =>
    .err (.msg ("failed to load private key '" ++ cfg.id.key ++ "': " ++ e))
  | none =>
  match env.csrErr with
  | some e => .err (.msg e)
  | none =>
  let _rootCas := useSystemCasIfEmpty caPool
  match env.post with
  | .error te => .err (.transport te)
  | .ok resp =>
    if resp.readErr then
      .err (.msg ("enroll error: " ++
        (resp.status ++ ": could not read body: " ++ resp.body.raw)))
    else if resp.statusCode = 200 then
      .ok { cfg with id := { cfg.id with cert := "pem:" ++ resp.body.raw } }
    else
      match resp.body.parsed with
      | none =>
        .err (.msg ("enroll error: " ++
          (resp.status ++ ": could not parse body: " ++ resp.body.raw)))
      | some j =>
        if (j.search ["error", "message"]).isSome then
          match dataString (j.search ["error", "message"]) with
          | none => .panicked interfaceConversionMsg
          | some message =>
          match dataString (j.search ["error", "code"]) with
          | none => .panicked interfaceConversionMsg
          | some code =>
          -- cause extraction, enroll.go:295-302
          match
            (if (j.search ["error", "cause", "message"]).isSome then
              dataString (j.search ["error", "cause", "message"])
            else some "") with
          | none => .panicked interfaceConversionMsg
          | some cause0 =>
          match
            (if cause0 = "" ∧ (j.search ["error", "causeMessage"]).isSome then
              dataString (j.search ["error", "causeMessage"])
            else some cause0) with
          | none => .panicked interfaceConversionMsg
          | some cause =>
            .err (.msg ("enroll error: " ++
              (resp.status ++ " - code: " ++ code ++ " - message: " ++ message ++
                " - cause: " ++ cause)))
        else
          .err (.msg ("enroll error: " ++
            (resp.status ++ ": unrecognized response: " ++ resp.body.raw)))

/-- Environment of one `enrollCA` call (`identity.LoadIdentity`,
`client.Post`).  The response body is never read by `enrollCA`. -/
structure CaEnv where
  loadIdentityErr : Option String
  post : Except TransportErr HttpResp

/-- The error text used for HTTP 409 by both CA-based strategies. -/
def alreadyEnrolledMsg : String := "the provided identity has already been enrolled"

/-- `enrollCA` (enroll.go:310). -/
def enrollCA (env : CaEnv) (cfg : Config) (caPool : CertPool) : Res Unit :=
  match env.loadIdentityErr with
  | some e => .err (.msg e)
  | none =>
  let _rootCas := useSystemCasIfEmpty caPool
  let _clientCert := cfg.id.cert
  match env.post with
  | .error te => .err (.transport te)
  | .ok resp =>
    if resp.statusCode ≠ 200 then
      if resp.statusCode = 409 then .err (.msg alreadyEnrolledMsg)
      else .err (.msg ("enroll error: " ++ resp.status))
    else .ok ()

/-- Environment of one `enrollCAAuto` call. -/
structure CaAutoEnv where
  loadIdentityErr : Option String
  post : Except TransportErr HttpResp

/-- `enrollCAAuto` (enroll.go:346).  The JSON post body built from
`enFlags.IDName` does not influence the modelled result (the response is part
of the environment); `json.Marshal` of the one-field name struct cannot
fail. -/
def enrollCAAuto (env : CaAutoEnv) (flags : EnrollmentFlags) (cfg : Config)
    (caPool : CertPool) : Res Unit :=
  match env.loadIdentityErr with
  | some e => .err (.msg e)
  | none =>
  let _rootCas := useSystemCasIfEmpty caPool
  let _clientCert := cfg.id.cert
  let _postBody := if trimSpace flags.idName ≠ "" then some (trimSpace flags.idName) else none
  match env.post with
  | .error te => .err (.transport te)
  | .ok resp =>
    if resp.statusCode ≠ 200 then
      if resp.statusCode = 409 then .err (.msg alreadyEnrolledMsg)
      else
        if resp.readErr then .err (.msg ("enroll error: " ++ resp.status))
        else
          match resp.body.parsed with
          | some j =>
            match dataString (j.search ["error", "code"]) with
            | none => .panicked interfaceConversionMsg
            | some code =>
            match dataString (j.search ["error", "message"]) with
            | none => .panicked interfaceConversionMsg
            | some message =>
              .err (.msg ("enroll error: " ++
                (resp.status ++ ": " ++ code ++ ": " ++ message)))
          | none =>
            .err (.msg ("enroll error: " ++ (resp.status ++ ": " ++ resp.body.raw)))
    else .ok ()

/-! ## Token validation (`ValidateToken`, enroll.go:74) -/

/-- The `token.Claims.(*config.EnrollmentClaims)` type assertion outcome as
seen by `ValidateToken`. -/
inductive ClaimsField where
  | notEnrollmentClaims
  | nilClaims
  | val (c : EnrollmentClaims)

/-- The `*jwt.Token` argument of `ValidateToken` (nil-able). -/
inductive TokenArg where
  | nilToken
  | withClaims (c : ClaimsField)

/-- Network event emitted by `ValidateToken`. -/
inductive VEvent where
  | fetchLeaf (url : String)
deriving DecidableEq, Repr

/-- Environment of `ValidateToken`: the `url.Parse` outcome for the issuer
and the `FetchServerCert` outcome (an error, covering both a failed request
and a missing peer certificate, or the fetched leaf certificate). -/
structure ValidateEnv where
  issuerParseOk : Bool
  fetchLeaf : Except String Cert

/-- `ValidateToken` (enroll.go:74): returns the signature public key or an
error, together with the trace of network calls performed. -/
def ValidateToken (env : ValidateEnv) (token : TokenArg) :
    Except GoErr Nat × List VEvent :=
  match token with
  | .nilToken => (.error (.msg "could not validate token, token is nil"), [])
  | .withClaims .notEnrollmentClaims =>
    (.error (.msg "could not validate token, token is not EnrollmentClaims"), [])
  | .withClaims .nilClaims =>
    (.error (.msg "could not validate token, EnrollmentClaims are nil"), [])
  | .withClaims (.val c) =>
    if c.issuer = "" then
      (.error (.msg "could not validate token, issues is empty"), [])
    else if !env.issuerParseOk then
      (.error (.msg ("could not validate token, issuer [" ++
        (c.issuer ++ "] is not a valid url "))), [])
    else
      match env.fetchLeaf with
      | .error e =>
        (.error (.msg ("could not retrieve token URL certificate: " ++ e)),
          [.fetchLeaf c.issuer])
      | .ok cert => (.ok cert.publicKey, [.fetchLeaf c.issuer])

/-! ## CA-bundle discovery (`FetchCertificates`, enroll.go:423) -/

/-- The response of the GET to `<issuer>/.well-known/est/cacerts`.
`b64Decoded` is the slice produced by `base64.StdEncoding.DecodeString`
(`none` = nil slice, so the parse step is skipped); `pkcs7` is the outcome of
`pkcs7.Parse` on those bytes (`none` = parse error). -/
structure FetchResp where
  statusCode : Nat
  readErr : Bool
  b64Decoded : Option (List Nat)
  pkcs7 : Option (List Cert)

/-- Environment of `FetchCertificates`: whether `url.Parse(urlRoot)`
succeeds (a failure makes the source call `log.Panic`) and the result of the
HTTP GET. -/
structure FetchEnv where
  urlParseOk : Bool
  get : Except String FetchResp

/-- `FetchCertificates` (enroll.go:423).  `Except.error` models the
`log.Panic` on an unparseable base URL; every other failure is swallowed and
yields the empty certificate list, exactly as in the source. -/
def FetchCertificates (env : FetchEnv) (urlRoot : String)
    (rootCaPool : CertPool) : Except String (List Cert) :=
  let _tlsRoots := rootCaPool
  let _url := urlRoot
  if !env.urlParseOk then
    .error "could not parse base url to retrieve CA store"
  else
    match env.get with
    | .error _ => .ok []
    | .ok resp =>
      if resp.readErr then .ok []
      else if 200 ≤ resp.statusCode ∧ resp.statusCode < 300 then
        match resp.b64Decoded with
        | some _ =>
          match resp.pkcs7 with
          | none => .ok []
          | some certs => .ok certs
        | none => .ok []
      else .ok []

/-! ## Orchestrator (`Enroll`, enroll.go:110) -/

/-- Result of `os.Stat(enFlags.KeyFile)` as discriminated by
enroll.go:118-132: the guard `stat != nil && !os.IsNotExist(err)` selects
`file`/`dir`; both error outcomes (`errNotExist`, `errOther`) leave `stat`
nil and fall to the engine-reference branch. -/
inductive StatResult where
  | file
  | dir
  | errNotExist
  | errOther
deriving DecidableEq, Repr

/-- Per-iteration environment of the retry loop: the external-call oracles
of whichever strategy the token's method selects. -/
structure AttemptEnv where
  ott : OttEnv
  ottca : CaEnv
  ca : CaAutoEnv

/-- Environment of one `Enroll` run. -/
structure EnrollEnv where
  /-- `os.Stat(enFlags.KeyFile)` -/
  keyStat : StatResult
  /-- `filepath.Abs(enFlags.KeyFile)` -/
  absKey : Except String String
  /-- `generateKey()` failure (`ecdsa.GenerateKey` on `rand.Reader`) -/
  genKeyErr : Option String
  /-- PEM encoding of the freshly generated key -/
  genKeyPem : String
  /-- `nfpem.PemToX509(ReadFile(enFlags.AdditionalCAs))` (read errors are
  discarded by the source and yield no certificates) -/
  additionalCerts : List Cert
  /-- `filepath.Abs(enFlags.CertFile)` (its error is discarded) -/
  absCert : String
  /-- strategy oracles for loop iteration `i` -/
  attempt : Nat → AttemptEnv
  /-- environment of the (at most one) `FetchCertificates` call -/
  fetch : FetchEnv
  /-- `nfx509.MarshalToPem` output for the accumulated certificates -/
  pemOf : List Cert → String
  /-- `nfx509.MarshalToPem` failure -/
  marshalPemErr : Option String

/-- Result of `Enroll`: the Go pair `(*config.Config, error)`, or a panic. -/
inductive EnrollResult where
  | ret (cfg : Option Config) (err : Option GoErr)
  | panicked (m : String)
deriving DecidableEq, Repr

/-- Trace events of one `Enroll` run.  `attempt` records a loop iteration
together with the trust pool and allowed-certificate list passed to the
strategy; `fetch` records the `FetchCertificates` call with the root pool it
was anchored to and the certificates it returned. -/
inductive Event where
  | attempt (i : Nat) (caPool : CertPool) (allowed : List Cert)
  | fetch (rootPool : CertPool) (fetched : List Cert)
deriving DecidableEq, Repr

/-- Key preparation, enroll.go:117-141.  When `generateKey` fails, `key` is
a typed-nil `*ecdsa.PrivateKey` and `x509.MarshalECPrivateKey` dereferences
it (enroll.go:135) before the error check at enroll.go:138 is reached; this
nil dereference is the `panicked` case. -/
def keyPrep (env : EnrollEnv) (flags : EnrollmentFlags) (cfg : Config) :
    Except EnrollResult Config :=
  if trimSpace flags.keyFile ≠ "" then
    match env.keyStat with
    | .dir =>
      .error (.ret none (some (.msg
        ("specified key is a directory (" ++ (flags.keyFile ++ ")")))))
    | .file =>
      match env.absKey with
      | .error m => .error (.ret none (some (.msg m)))
      | .ok abs => .ok { cfg with id := { cfg.id with key := "file://" ++ abs } }
    | .errNotExist => .ok { cfg with id := { cfg.id with key := flags.keyFile } }
    | .errOther => .ok { cfg with id := { cfg.id with key := flags.keyFile } }
  else
    match env.genKeyErr with
    | some _ =>
      .error (.panicked "runtime error: invalid memory address or nil pointer dereference")
    | none => .ok { cfg with id := { cfg.id with key := "pem:" ++ env.genKeyPem } }

/-- The straight-line prefix of `Enroll` before the retry loop
(enroll.go:110-159): build the config, prepare the key, seed the trust pool
from the CA override file, record the caller-supplied certificate. -/
def prep (env : EnrollEnv) (flags : EnrollmentFlags) :
    Except EnrollResult (Config × CertPool × List Cert) :=
  let cfg0 : Config :=
    { ztAPI := flags.token.issuer, id := { key := "", cert := "", ca := "" } }
  match keyPrep env flags cfg0 with
  | .error r => .error r
  | .ok cfg1 =>
    let added := if trimSpace flags.additionalCAs ≠ "" then env.additionalCerts else []
    let caPool := added.foldl CertPool.addCert []
    let cfg2 :=
      if flags.certFile ≠ "" then
        { cfg1 with id := { cfg1.id with cert := "file://" ++ env.absCert } }
      else cfg1
    .ok (cfg2, caPool, added)

/-- The `switch enFlags.Token.EnrollmentMethod` dispatch (enroll.go:169-179).
For the CA-based strategies the config is returned unchanged on success. -/
def dispatch (a : AttemptEnv) (flags : EnrollmentFlags) (cfg : Config)
    (caPool : CertPool) : Res Config :=
  match flags.token.enrollmentMethod with
  | "ott" => enrollOTT a.ott cfg caPool
  | "ottca" =>
    match enrollCA a.ottca cfg caPool with
    | .ok _ => .ok cfg
    | .err e => .err e
    | .panicked m => .panicked m
  | "ca" =>
    match enrollCAAuto a.ca flags cfg caPool with
    | .ok _ => .ok cfg
    | .err e => .err e
    | .panicked m => .panicked m
  | m => .err (.msg ("enrollment method '" ++ (m ++ "' is not supported")))

/-- The code after the loop (enroll.go:211-220): serialize the accumulated
certificates and attach them as the CA bundle. -/
def finish (env : EnrollEnv) (cfg : Config) (allowed : List Cert) : EnrollResult :=
  if allowed.length > 0 then
    match env.marshalPemErr with
    | some m => .ret none (some (.msg m))
    | none =>
      .ret (some { cfg with id := { cfg.id with ca := "pem:" ++ env.pemOf allowed } })
        none
  else .ret (some cfg) none

/-- The `for !enrollmentComplete` retry loop (enroll.go:168-209), fuel-indexed
to make the recursion structural; `enrollLoop_fuel_two` below shows that two
units of fuel decide every run, matching the source comment "loop two times
at most".  On an unknown-authority transport error with `shouldFetch` still
set, the loop anchors a fresh pool to the token's `SignatureCert`
(`AddCert` panics on a nil certificate), fetches the CA bundle, grows the
pool and retries with `shouldFetch` cleared. -/
def enrollLoop (env : EnrollEnv) (flags : EnrollmentFlags) (cfg : Config)
    (caPool : CertPool) (allowed : List Cert) (shouldFetch : Bool) (i : Nat) :
    Nat → EnrollResult × List Event
  | 0 => (.panicked "loop fuel exhausted", [])
  | fuel + 1 =>
    let ev := Event.attempt i caPool allowed
    match dispatch (env.attempt i) flags cfg caPool with
    | .ok cfg' => (finish env cfg' allowed, [ev])
    | .panicked m => (.panicked m, [ev])
    | .err e =>
      match e with
      | .transport te =>
        if te.unknownAuthority && shouldFetch then
          match flags.token.signatureCert with
          | none => (.panicked "adding nil Certificate to CertPool", [ev])
          | some sc =>
            let root := CertPool.addCert [] sc
            match FetchCertificates env.fetch cfg.ztAPI root with
            | .error m => (.panicked m, [ev, .fetch root []])
            | .ok fetched =>
              let caPool' := fetched.foldl CertPool.addCert caPool
              let allowed' := allowed ++ fetched
              let r := enrollLoop env flags cfg caPool' allowed' false (i + 1) fuel
              (r.1, ev :: .fetch root fetched :: r.2)
        else (.ret (some cfg) (some (.transport te)), [ev])
      | .msg s => (.ret (some cfg) (some (.msg s)), [ev])

/-- `Enroll` (enroll.go:110): run the preparation prefix, then the retry
loop (two units of fuel suffice for the at-most-two iterations). -/
def Enroll (env : EnrollEnv) (flags : EnrollmentFlags) :
    EnrollResult × List Event :=
  match prep env flags with
  | .error r => (r, [])
  | .ok (cfg, caPool, allowed) => enrollLoop env flags cfg caPool allowed true 0 2

/-- Number of CA-bundle fetches in a trace. -/
def countFetch (evs : List Event) : Nat :=
  evs.countP fun e => match e with | .fetch _ _ => true | _ => false

/-- Trust-pool snapshots of a trace, in order. -/
def poolSnaps (evs : List Event) : List CertPool :=
  evs.filterMap fun e => match e with | .attempt _ p _ => some p | _ => none

/-- Allowed-certificate snapshots of a trace, in order. -/
def allowedSnaps (evs : List Event) : List (List Cert) :=
  evs.filterMap fun e => match e with | .attempt _ _ a => some a | _ => none

/-- The key reference of a returned configuration, `none` when no
configuration was returned (or the run panicked). -/
def retCfgKey : EnrollResult → Option String
  | .ret (some c) _ => some c.id.key
  | _ => none

/-- The key reference produced by the preparation prefix. -/
def prepKey (env : EnrollEnv) (flags : EnrollmentFlags) : Option String :=
  match prep env flags with
  | .ok (c, _, _) => some c.id.key
  | .error _ => none

/-- Character-list prefix test (used instead of `String.isPrefixOf` so that
the definition evaluates by kernel reduction). -/
def strStartsWith : List Char → List Char → Bool
  | [], _ => true
  | _ :: _, [] => false
  | a :: as, b :: bs => a = b && strStartsWith as bs

/-- Whether a strategy outcome is an `EnrollmentRejected`-style error, i.e.
an `errors.Errorf` error whose message starts with `enroll error: ` or the
`AlreadyEnrolled` message. -/
def isRejectedStyle (r : Res Unit) : Bool :=
  match r with
  | .err (.msg m) => strStartsWith "enroll error: ".data m.data || m = alreadyEnrolledMsg
  | _ => false

/-- The failure modes of `FetchCertificates` enumerated by the specification:
a failed GET (network error), a failed body read, a non-2xx status, a nil
base64 decode, or a PKCS7 parse failure. -/
def fetchFailureMode (env : FetchEnv) : Bool :=
  match env.get with
  | .error _ => true
  | .ok resp =>
    resp.readErr ||
    !(decide (200 ≤ resp.statusCode) && decide (resp.statusCode < 300)) ||
    resp.b64Decoded.isNone ||
    resp.pkcs7.isNone

/-! ## Concrete run fixtures

Concrete environments used to evaluate the embedded functions on explicit
inputs (witnesses of the general theorems, and failing runs of the source). -/

/-- The certificate that signs the enrollment token in the fixtures. -/
def certF : Cert := { serial := 1, publicKey := 11 }

/-- A certificate returned by the CA-bundle fetch in the fixtures. -/
def fetchedF : Cert := { serial := 2, publicKey := 22 }

/-- An unknown-authority transport error. -/
def uaErrF : TransportErr :=
  { unknownAuthority := true, msg := "x509: certificate signed by unknown authority" }

/-- A transport error that is not an unknown-authority error. -/
def naErrF : TransportErr :=
  { unknownAuthority := false, msg := "dial tcp: connection refused" }

/-- Strategy oracles that always fail with an unknown-authority error. -/
def attemptUA : AttemptEnv :=
  { ott := { loadKeyErr := none, csrErr := none, post := .error uaErrF },
    ottca := { loadIdentityErr := none, post := .error uaErrF },
    ca := { loadIdentityErr := none, post := .error uaErrF } }

/-- Strategy oracles that always fail with a non-trust transport error. -/
def attemptNA : AttemptEnv :=
  { ott := { loadKeyErr := none, csrErr := none, post := .error naErrF },
    ottca := { loadIdentityErr := none, post := .error naErrF },
    ca := { loadIdentityErr := none, post := .error naErrF } }

/-- A fetch environment whose GET succeeds with a parseable bundle. -/
def fetchOkF : FetchEnv :=
  { urlParseOk := true,
    get := .ok { statusCode := 200, readErr := false,
                 b64Decoded := some [1], pkcs7 := some [fetchedF] } }

/-- Token of the double-unknown-authority run. -/
def tokenC1 : EnrollmentClaims :=
  { issuer := "https://ctrl.example", enrollmentMethod := "ott",
    enrolmentUrl := "https://ctrl.example/enroll", signatureCert := some certF }

/-- Flags of the double-unknown-authority run. -/
def flagsC1 : EnrollmentFlags :=
  { token := tokenC1, certFile := "", keyFile := "", idName := "", additionalCAs := "" }

/-- Environment of the double-unknown-authority run. -/
def envC1 : EnrollEnv :=
  { keyStat := .errNotExist, absKey := .ok "/abs", genKeyErr := none, genKeyPem := "K1",
    additionalCerts := [], absCert := "",
    attempt := fun _ => attemptUA, fetch := fetchOkF,
    pemOf := fun _ => "", marshalPemErr := none }

/-- Configuration produced by the preparation prefix of the
double-unknown-authority run. -/
def cfgC1 : Config :=
  { ztAPI := "https://ctrl.example", id := { key := "pem:K1", cert := "", ca := "" } }

/-- A fetch environment whose GET fails (connection refused). -/
def fenvC2 : FetchEnv := { urlParseOk := true, get := .error "connection refused" }

/-- Token with an enrollment method the source does not support. -/
def tokenC3 : EnrollmentClaims :=
  { issuer := "https://c3.example", enrollmentMethod := "bogus",
    enrolmentUrl := "", signatureCert := none }

/-- Flags of the unsupported-method run. -/
def flagsC3 : EnrollmentFlags :=
  { token := tokenC3, certFile := "", keyFile := "", idName := "", additionalCAs := "" }

/-- Environment of the unsupported-method run. -/
def envC3 : EnrollEnv :=
  { keyStat := .errNotExist, absKey := .ok "", genKeyErr := none, genKeyPem := "K3",
    additionalCerts := [], absCert := "",
    attempt := fun _ => attemptUA, fetch := fenvC2,
    pemOf := fun _ => "", marshalPemErr := none }

/-- Configuration built by the unsupported-method run before it fails. -/
def cfgC3 : Config :=
  { ztAPI := "https://c3.example", id := { key := "pem:K3", cert := "", ca := "" } }

/-- A plain HTTP 200 response whose body is a PEM certificate. -/
def respOkC4 : HttpResp :=
  { statusCode := 200, status := "200 OK", readErr := false,
    body := { raw := "PEMCERT", parsed := none } }

/-- `enrollOTT` oracles answering 200. -/
def ottC4 : OttEnv := { loadKeyErr := none, csrErr := none, post := .ok respOkC4 }

/-- `enrollCA` oracles answering 200. -/
def caC4 : CaEnv := { loadIdentityErr := none, post := .ok respOkC4 }

/-- `enrollCAAuto` oracles answering 200. -/
def autoC4 : CaAutoEnv := { loadIdentityErr := none, post := .ok respOkC4 }

/-- A prepared configuration used for direct strategy calls. -/
def cfgC4 : Config :=
  { ztAPI := "https://c4.example", id := { key := "pem:K4", cert := "", ca := "" } }

/-- Flags used for direct strategy calls (method `ca`, named identity). -/
def flagsC4 : EnrollmentFlags :=
  { token := { issuer := "https://c4.example", enrollmentMethod := "ca",
               enrolmentUrl := "", signatureCert := none },
    certFile := "", keyFile := "", idName := "edge-01", additionalCAs := "" }

/-- A 500 response whose body parses to the empty JSON object: no
`error.code` field, so `enrollCAAuto` hits the nil type assertion. -/
def respC5cex : HttpResp :=
  { statusCode := 500, status := "500 Internal Server Error", readErr := false,
    body := { raw := "\x7b\x7d", parsed := some (.obj []) } }

/-- `enrollCAAuto` oracles answering that 500. -/
def aenvC5cex : CaAutoEnv := { loadIdentityErr := none, post := .ok respC5cex }

/-- A 409 Conflict response. -/
def resp409C5 : HttpResp :=
  { statusCode := 409, status := "409 Conflict", readErr := false,
    body := { raw := "", parsed := none } }

/-- `enrollCA` oracles answering 409. -/
def cenvC5 : CaEnv := { loadIdentityErr := none, post := .ok resp409C5 }

/-- `enrollCAAuto` oracles answering 409. -/
def aenvC5 : CaAutoEnv := { loadIdentityErr := none, post := .ok resp409C5 }

/-- A 400 response whose JSON body has `error.message` but no `error.code`:
exactly the shape the spec says must still produce a descriptive error. -/
def respC6ott : HttpResp :=
  { statusCode := 400, status := "400 Bad Request", readErr := false,
    body := { raw := "\x7b\"error\":\x7b\"message\":\"ott denied\"\x7d\x7d",
              parsed := some (.obj [("error", .obj [("message", .str "ott denied")])]) } }

/-- `enrollOTT` oracles answering that 400. -/
def ottC6 : OttEnv := { loadKeyErr := none, csrErr := none, post := .ok respC6ott }

/-- A 502 response whose JSON body has no `error.code`/`error.message`
objects at all. -/
def respC6auto : HttpResp :=
  { statusCode := 502, status := "502 Bad Gateway", readErr := false,
    body := { raw := "\x7b\"error\":\"bad gateway\"\x7d",
              parsed := some (.obj [("error", .str "bad gateway")]) } }

/-- `enrollCAAuto` oracles answering that 502. -/
def autoC6 : CaAutoEnv := { loadIdentityErr := none, post := .ok respC6auto }

/-- Environment whose fresh-key generation fails (random source error). -/
def envC7 : EnrollEnv :=
  { keyStat := .errNotExist, absKey := .ok "", genKeyErr := some "random source failure",
    genKeyPem := "", additionalCerts := [], absCert := "",
    attempt := fun _ => attemptUA, fetch := fenvC2,
    pemOf := fun _ => "", marshalPemErr := none }

/-- Claims whose issuer field is empty. -/
def claimsC8 : EnrollmentClaims :=
  { issuer := "", enrollmentMethod := "ott", enrolmentUrl := "", signatureCert := none }

/-- Validation environment for the empty-issuer run. -/
def venvC8 : ValidateEnv := { issuerParseOk := true, fetchLeaf := .ok certF }

/-- Flags whose key reference is an engine URI naming no file. -/
def flagsC10 : EnrollmentFlags :=
  { token := { issuer := "https://c10.example", enrollmentMethod := "ott",
               enrolmentUrl := "", signatureCert := none },
    certFile := "", keyFile := "pkcs11:slot0:key", idName := "", additionalCAs := "" }

/-- Environment of the engine-reference run: `os.Stat` reports the path does
not exist, the strategy fails with a non-trust error. -/
def envC10 : EnrollEnv :=
  { keyStat := .errNotExist, absKey := .ok "", genKeyErr := none, genKeyPem := "",
    additionalCerts := [], absCert := "",
    attempt := fun _ => attemptNA, fetch := fenvC2,
    pemOf := fun _ => "", marshalPemErr := none }

/-! ## Helper lemmas -/

theorem subset_addCert (p : CertPool) (c : Cert) : p ⊆ CertPool.addCert p c := by
  unfold CertPool.addCert
  split
  · exact List.Subset.refl p
  · exact List.subset_append_left p [c]

theorem subset_foldl_addCert (cs : List Cert) (p : CertPool) :
    p ⊆ cs.foldl CertPool.addCert p := by
  induction cs generalizing p with
  | nil => exact List.Subset.refl p
  | cons c cs ih =>
    exact (subset_addCert p c).trans (ih (CertPool.addCert p c))

theorem enroll_error_ne_already (s : String) :
    ("enroll error: " ++ s) ≠ alreadyEnrolledMsg := by
  obtain ⟨l⟩ := s
  intro h
  have h2 : ("enroll error: ".data ++ l) = alreadyEnrolledMsg.data :=
    congrArg String.data h
  have h4 := congrArg (fun xs => List.headD xs 'z') h2
  simp [alreadyEnrolledMsg] at h4

/-! ### Step lemmas for the retry loop -/

theorem enrollLoop_ok (env : EnrollEnv) (flags : EnrollmentFlags) (cfg : Config)
    (caPool : CertPool) (allowed : List Cert) (sf : Bool) (i fuel : Nat)
    (cfg' : Config)
    (h : dispatch (env.attempt i) flags cfg caPool = .ok cfg') :
    enrollLoop env flags cfg caPool allowed sf i (fuel + 1) =
      (finish env cfg' allowed, [.attempt i caPool allowed]) := by
  simp [enrollLoop, h]

theorem enrollLoop_panic (env : EnrollEnv) (flags : EnrollmentFlags) (cfg : Config)
    (caPool : CertPool) (allowed : List Cert) (sf : Bool) (i fuel : Nat) (m : String)
    (h : dispatch (env.attempt i) flags cfg caPool = .panicked m) :
    enrollLoop env flags cfg caPool allowed sf i (fuel + 1) =
      (.panicked m, [.attempt i caPool allowed]) := by
  simp [enrollLoop, h]

theorem enrollLoop_msg (env : EnrollEnv) (flags : EnrollmentFlags) (cfg : Config)
    (caPool : CertPool) (allowed : List Cert) (sf : Bool) (i fuel : Nat) (s : String)
    (h : dispatch (env.attempt i) flags cfg caPool = .err (.msg s)) :
    enrollLoop env flags cfg caPool allowed sf i (fuel + 1) =
      (.ret (some cfg) (some (.msg s)), [.attempt i caPool allowed]) := by
  simp [enrollLoop, h]

theorem enrollLoop_stop (env : EnrollEnv) (flags : EnrollmentFlags) (cfg : Config)
    (caPool : CertPool) (allowed : List Cert) (sf : Bool) (i fuel : Nat)
    (te : TransportErr)
    (h : dispatch (env.attempt i) flags cfg caPool = .err (.transport te))
    (hcond : (te.unknownAuthority && sf) = false) :
    enrollLoop env flags cfg caPool allowed sf i (fuel + 1) =
      (.ret (some cfg) (some (.transport te)), [.attempt i caPool allowed]) := by
  simp [enrollLoop, h, hcond]

theorem enrollLoop_retry (env : EnrollEnv) (flags : EnrollmentFlags) (cfg : Config)
    (caPool : CertPool) (allowed : List Cert) (i fuel : Nat)
    (te : TransportErr) (sc : Cert) (cs : List Cert)
    (h : dispatch (env.attempt i) flags cfg caPool = .err (.transport te))
    (hua : te.unknownAuthority = true)
    (hsig : flags.token.signatureCert = some sc)
    (hcs : FetchCertificates env.fetch cfg.ztAPI (CertPool.addCert [] sc) = .ok cs) :
    enrollLoop env flags cfg caPool allowed true i (fuel + 1) =
      ((enrollLoop env flags cfg (cs.foldl CertPool.addCert caPool)
          (allowed ++ cs) false (i + 1) fuel).1,
        .attempt i caPool allowed :: .fetch (CertPool.addCert [] sc) cs ::
        (enrollLoop env flags cfg (cs.foldl CertPool.addCert caPool)
          (allowed ++ cs) false (i + 1) fuel).2) := by
  simp [enrollLoop, h, hua, hsig, hcs]

theorem enrollLoop_sigNil (env : EnrollEnv) (flags : EnrollmentFlags) (cfg : Config)
    (caPool : CertPool) (allowed : List Cert) (i fuel : Nat) (te : TransportErr)
    (h : dispatch (env.attempt i) flags cfg caPool = .err (.transport te))
    (hua : te.unknownAuthority = true)
    (hsig : flags.token.signatureCert = none) :
    enrollLoop env flags cfg caPool allowed true i (fuel + 1) =
      (.panicked "adding nil Certificate to CertPool", [.attempt i caPool allowed]) := by
  simp [enrollLoop, h, hua, hsig]

theorem enrollLoop_fetchPanic (env : EnrollEnv) (flags : EnrollmentFlags) (cfg : Config)
    (caPool : CertPool) (allowed : List Cert) (i fuel : Nat) (te : TransportErr)
    (sc : Cert) (m : String)
    (h : dispatch (env.attempt i) flags cfg caPool = .err (.transport te))
    (hua : te.unknownAuthority = true)
    (hsig : flags.token.signatureCert = some sc)
    (hf : FetchCertificates env.fetch cfg.ztAPI (CertPool.addCert [] sc) = .error m) :
    enrollLoop env flags cfg caPool allowed true i (fuel + 1) =
      (.panicked m,
        [.attempt i caPool allowed, .fetch (CertPool.addCert [] sc) []]) := by
  simp [enrollLoop, h, hua, hsig, hf]

/-- With `shouldFetch` cleared the loop body cannot recurse, so the fuel
value is irrelevant. -/
theorem enrollLoop_false_fuel (env : EnrollEnv) (flags : EnrollmentFlags)
    (cfg : Config) (caPool : CertPool) (allowed : List Cert) (i fuel : Nat) :
    enrollLoop env flags cfg caPool allowed false i (fuel + 1) =
      enrollLoop env flags cfg caPool allowed false i 1 := by
  cases hd : dispatch (env.attempt i) flags cfg caPool with
  | ok cfg' => simp [enrollLoop, hd]
  | panicked m => simp [enrollLoop, hd]
  | err e =>
    cases e with
    | transport te => simp [enrollLoop, hd]
    | msg s => simp [enrollLoop, hd]

/-- Two units of fuel decide every run of the retry loop: the source loop
("loop two times at most", enroll.go:166) performs at most two iterations. -/
theorem enrollLoop_fuel_two (env : EnrollEnv) (flags : EnrollmentFlags)
    (cfg : Config) (caPool : CertPool) (allowed : List Cert) (sf : Bool)
    (i fuel : Nat) :
    enrollLoop env flags cfg caPool allowed sf i (fuel + 2) =
      enrollLoop env flags cfg caPool allowed sf i 2 := by
  cases sf with
  | false =>
    rw [show fuel + 2 = (fuel + 1) + 1 from rfl,
      enrollLoop_false_fuel env flags cfg caPool allowed i (fuel + 1),
      show (2 : Nat) = 1 + 1 from rfl,
      enrollLoop_false_fuel env flags cfg caPool allowed i 1]
  | true =>
    cases hd : dispatch (env.attempt i) flags cfg caPool with
    | ok cfg' => simp [enrollLoop, hd]
    | panicked m => simp [enrollLoop, hd]
    | err e =>
      cases e with
      | msg s => simp [enrollLoop, hd]
      | transport te =>
        cases hua : te.unknownAuthority with
        | false => simp [enrollLoop, hd, hua]
        | true =>
          cases hsig : flags.token.signatureCert with
          | none => simp [enrollLoop, hd, hua, hsig]
          | some sc =>
            cases hf : FetchCertificates env.fetch cfg.ztAPI (CertPool.addCert [] sc) with
            | error m => simp [enrollLoop, hd, hua, hsig, hf]
            | ok cs =>
              rw [show fuel + 2 = (fuel + 1) + 1 from rfl,
                enrollLoop_retry env flags cfg caPool allowed i (fuel + 1) te sc cs hd hua hsig hf,
                show (2 : Nat) = 1 + 1 from rfl,
                enrollLoop_retry env flags cfg caPool allowed i 1 te sc cs hd hua hsig hf,
                enrollLoop_false_fuel env flags cfg (cs.foldl CertPool.addCert caPool)
                  (allowed ++ cs) (i + 1) fuel]

/-! ### Loop invariants -/

/-- Once `shouldFetch` is cleared the loop never fetches. -/
theorem countFetch_loop_false (env : EnrollEnv) (flags : EnrollmentFlags)
    (cfg : Config) (caPool : CertPool) (allowed : List Cert) (i fuel : Nat) :
    countFetch (enrollLoop env flags cfg caPool allowed false i fuel).2 = 0 := by
  cases fuel with
  | zero => simp [enrollLoop, countFetch]
  | succ fuel =>
    cases hd : dispatch (env.attempt i) flags cfg caPool with
    | ok cfg' =>
      rw [enrollLoop_ok env flags cfg caPool allowed false i fuel cfg' hd]
      simp [countFetch]
    | panicked m =>
      rw [enrollLoop_panic env flags cfg caPool allowed false i fuel m hd]
      simp [countFetch]
    | err e =>
      cases e with
      | msg s =>
        rw [enrollLoop_msg env flags cfg caPool allowed false i fuel s hd]
        simp [countFetch]
      | transport te =>
        rw [enrollLoop_stop env flags cfg caPool allowed false i fuel te hd
          (by simp)]
        simp [countFetch]

/-- The loop performs at most one CA-bundle fetch, whatever the
environment does. -/
theorem countFetch_loop_le (env : EnrollEnv) (flags : EnrollmentFlags)
    (cfg : Config) (caPool : CertPool) (allowed : List Cert) (sf : Bool)
    (i fuel : Nat) :
    countFetch (enrollLoop env flags cfg caPool allowed sf i fuel).2 ≤ 1 := by
  cases fuel with
  | zero => simp [enrollLoop, countFetch]
  | succ fuel =>
    cases hd : dispatch (env.attempt i) flags cfg caPool with
    | ok cfg' =>
      rw [enrollLoop_ok env flags cfg caPool allowed sf i fuel cfg' hd]
      simp [countFetch]
    | panicked m =>
      rw [enrollLoop_panic env flags cfg caPool allowed sf i fuel m hd]
      simp [countFetch]
    | err e =>
      cases e with
      | msg s =>
        rw [enrollLoop_msg env flags cfg caPool allowed sf i fuel s hd]
        simp [countFetch]
      | transport te =>
        cases hcond : te.unknownAuthority && sf with
        | false =>
          rw [enrollLoop_stop env flags cfg caPool allowed sf i fuel te hd hcond]
          simp [countFetch]
        | true =>
          obtain ⟨hua, hsf⟩ := Bool.and_eq_true_iff.mp hcond
          subst hsf
          cases hsig : flags.token.signatureCert with
          | none =>
            rw [enrollLoop_sigNil env flags cfg caPool allowed i fuel te hd hua hsig]
            simp [countFetch]
          | some sc =>
            cases hf : FetchCertificates env.fetch cfg.ztAPI (CertPool.addCert [] sc) with
            | error m =>
              rw [enrollLoop_fetchPanic env flags cfg caPool allowed i fuel te sc m
                hd hua hsig hf]
              simp [countFetch]
            | ok cs =>
              rw [enrollLoop_retry env flags cfg caPool allowed i fuel te sc cs
                hd hua hsig hf]
              have h0 := countFetch_loop_false env flags cfg
                (cs.foldl CertPool.addCert caPool) (allowed ++ cs) (i + 1) fuel
              simp only [countFetch, List.countP_cons] at h0 ⊢
              simp [h0]

/-- `Enroll` performs at most one CA-bundle fetch per run. -/
theorem enroll_countFetch_le_one (env : EnrollEnv) (flags : EnrollmentFlags) :
    countFetch (Enroll env flags).2 ≤ 1 := by
  unfold Enroll
  cases hp : prep env flags with
  | error r => simp [countFetch]
  | ok v =>
    obtain ⟨cfg, caPool, allowed⟩ := v
    exact countFetch_loop_le env flags cfg caPool allowed true 0 2

/-- A successful `enrollOTT` only writes the certificate field of the
configuration. -/
theorem enrollOTT_ok_shape (oenv : OttEnv) (cfg : Config) (caPool : CertPool)
    (cfg' : Config) (h : enrollOTT oenv cfg caPool = .ok cfg') :
    cfg'.id.key = cfg.id.key ∧ cfg'.id.ca = cfg.id.ca ∧ cfg'.ztAPI = cfg.ztAPI := by
  unfold enrollOTT at h
  repeat' split at h
  all_goals first
    | (cases h; simp)
    | simp_all

/-- A successful dispatch leaves the key, CA and endpoint fields of the
configuration unchanged. -/
theorem dispatch_ok_shape (a : AttemptEnv) (flags : EnrollmentFlags) (cfg : Config)
    (caPool : CertPool) (cfg' : Config)
    (h : dispatch a flags cfg caPool = .ok cfg') :
    cfg'.id.key = cfg.id.key ∧ cfg'.id.ca = cfg.id.ca ∧ cfg'.ztAPI = cfg.ztAPI := by
  unfold dispatch at h
  split at h
  · exact enrollOTT_ok_shape a.ott cfg caPool cfg' h
  · split at h <;> simp_all
  · split at h <;> simp_all
  · simp_all

/-- Whatever the loop returns, a returned configuration carries the key the
loop was entered with. -/
theorem loop_ret_key (env : EnrollEnv) (flags : EnrollmentFlags) (cfg : Config)
    (caPool : CertPool) (allowed : List Cert) (sf : Bool) (i fuel : Nat) :
    retCfgKey (enrollLoop env flags cfg caPool allowed sf i fuel).1 = some cfg.id.key ∨
    retCfgKey (enrollLoop env flags cfg caPool allowed sf i fuel).1 = none := by
  induction fuel generalizing caPool allowed sf i with
  | zero => right; simp [enrollLoop, retCfgKey]
  | succ fuel ih =>
    cases hd : dispatch (env.attempt i) flags cfg caPool with
    | ok cfg' =>
      rw [enrollLoop_ok env flags cfg caPool allowed sf i fuel cfg' hd]
      have hk := (dispatch_ok_shape (env.attempt i) flags cfg caPool cfg' hd).1
      unfold finish
      split
      · split
        · right; simp [retCfgKey]
        · left; simp [retCfgKey, hk]
      · left; simp [retCfgKey, hk]
    | panicked m =>
      rw [enrollLoop_panic env flags cfg caPool allowed sf i fuel m hd]
      right; simp [retCfgKey]
    | err e =>
      cases e with
      | msg s =>
        rw [enrollLoop_msg env flags cfg caPool allowed sf i fuel s hd]
        left; simp [retCfgKey]
      | transport te =>
        cases hcond : te.unknownAuthority && sf with
        | false =>
          rw [enrollLoop_stop env flags cfg caPool allowed sf i fuel te hd hcond]
          left; simp [retCfgKey]
        | true =>
          obtain ⟨hua, hsf⟩ := Bool.and_eq_true_iff.mp hcond
          subst hsf
          cases hsig : flags.token.signatureCert with
          | none =>
            rw [enrollLoop_sigNil env flags cfg caPool allowed i fuel te hd hua hsig]
            right; simp [retCfgKey]
          | some sc =>
            cases hf : FetchCertificates env.fetch cfg.ztAPI (CertPool.addCert [] sc) with
            | error m =>
              rw [enrollLoop_fetchPanic env flags cfg caPool allowed i fuel te sc m
                hd hua hsig hf]
              right; simp [retCfgKey]
            | ok cs =>
              rw [enrollLoop_retry env flags cfg caPool allowed i fuel te sc cs
                hd hua hsig hf]
              exact ih (cs.foldl CertPool.addCert caPool) (allowed ++ cs) false (i + 1)

/-- When the loop returns a configuration together with an error, the
configuration is exactly the one the loop was entered with (strategies only
modify the configuration on success, and success never returns an error). -/
theorem loop_ret_cfg (env : EnrollEnv) (flags : EnrollmentFlags) (cfg : Config)
    (caPool : CertPool) (allowed : List Cert) (sf : Bool) (i fuel : Nat)
    (c : Config) (e : GoErr)
    (h : (enrollLoop env flags cfg caPool allowed sf i fuel).1 = .ret (some c) (some e)) :
    c = cfg := by
  induction fuel generalizing caPool allowed sf i with
  | zero => simp [enrollLoop] at h
  | succ fuel ih =>
    cases hd : dispatch (env.attempt i) flags cfg caPool with
    | ok cfg' =>
      rw [enrollLoop_ok env flags cfg caPool allowed sf i fuel cfg' hd] at h
      unfold finish at h
      split at h
      · split at h <;> simp_all
      · simp_all
    | panicked m =>
      rw [enrollLoop_panic env flags cfg caPool allowed sf i fuel m hd] at h
      simp at h
    | err e' =>
      cases e' with
      | msg s =>
        rw [enrollLoop_msg env flags cfg caPool allowed sf i fuel s hd] at h
        simp at h
        exact h.1.symm
      | transport te =>
        cases hcond : te.unknownAuthority && sf with
        | false =>
          rw [enrollLoop_stop env flags cfg caPool allowed sf i fuel te hd hcond] at h
          simp at h
          exact h.1.symm
        | true =>
          obtain ⟨hua, hsf⟩ := Bool.and_eq_true_iff.mp hcond
          subst hsf
          cases hsig : flags.token.signatureCert with
          | none =>
            rw [enrollLoop_sigNil env flags cfg caPool allowed i fuel te hd hua hsig] at h
            simp at h
          | some sc =>
            cases hf : FetchCertificates env.fetch cfg.ztAPI (CertPool.addCert [] sc) with
            | error m =>
              rw [enrollLoop_fetchPanic env flags cfg caPool allowed i fuel te sc m
                hd hua hsig hf] at h
              simp at h
            | ok cs =>
              rw [enrollLoop_retry env flags cfg caPool allowed i fuel te sc cs
                hd hua hsig hf] at h
              exact ih (cs.foldl CertPool.addCert caPool) (allowed ++ cs) false (i + 1) h

/-- Every trust-pool snapshot in the loop's trace contains the pool the loop
was entered with. -/
theorem poolSnaps_loop_ge (env : EnrollEnv) (flags : EnrollmentFlags) (cfg : Config)
    (caPool : CertPool) (allowed : List Cert) (sf : Bool) (i fuel : Nat) :
    ∀ q ∈ poolSnaps (enrollLoop env flags cfg caPool allowed sf i fuel).2,
      caPool ⊆ q := by
  induction fuel generalizing caPool allowed sf i with
  | zero => simp [enrollLoop, poolSnaps]
  | succ fuel ih =>
    cases hd : dispatch (env.attempt i) flags cfg caPool with
    | ok cfg' =>
      rw [enrollLoop_ok env flags cfg caPool allowed sf i fuel cfg' hd]
      simp [poolSnaps]
    | panicked m =>
      rw [enrollLoop_panic env flags cfg caPool allowed sf i fuel m hd]
      simp [poolSnaps]
    | err e =>
      cases e with
      | msg s =>
        rw [enrollLoop_msg env flags cfg caPool allowed sf i fuel s hd]
        simp [poolSnaps]
      | transport te =>
        cases hcond : te.unknownAuthority && sf with
        | false =>
          rw [enrollLoop_stop env flags cfg caPool allowed sf i fuel te hd hcond]
          simp [poolSnaps]
        | true =>
          obtain ⟨hua, hsf⟩ := Bool.and_eq_true_iff.mp hcond
          subst hsf
          cases hsig : flags.token.signatureCert with
          | none =>
            rw [enrollLoop_sigNil env flags cfg caPool allowed i fuel te hd hua hsig]
            simp [poolSnaps]
          | some sc =>
            cases hf : FetchCertificates env.fetch cfg.ztAPI (CertPool.addCert [] sc) with
            | error m =>
              rw [enrollLoop_fetchPanic env flags cfg caPool allowed i fuel te sc m
                hd hua hsig hf]
              simp [poolSnaps]
            | ok cs =>
              rw [enrollLoop_retry env flags cfg caPool allowed i fuel te sc cs
                hd hua hsig hf]
              intro q hq
              simp only [poolSnaps, List.filterMap_cons] at hq
              simp at hq
              rcases hq with hq | hq
              · subst hq; exact List.Subset.refl _
              · have hsub := ih (cs.foldl CertPool.addCert caPool) (allowed ++ cs)
                  false (i + 1) q (by simpa [poolSnaps] using hq)
                exact (subset_foldl_addCert cs caPool).trans hsub

/-- The trust-pool snapshots of the loop's trace grow monotonically. -/
theorem poolSnaps_loop_pairwise (env : EnrollEnv) (flags : EnrollmentFlags)
    (cfg : Config) (caPool : CertPool) (allowed : List Cert) (sf : Bool)
    (i fuel : Nat) :
    List.Pairwise (· ⊆ ·) (poolSnaps (enrollLoop env flags cfg caPool allowed sf i fuel).2) := by
  induction fuel generalizing caPool allowed sf i with
  | zero => simp [enrollLoop, poolSnaps]
  | succ fuel ih =>
    cases hd : dispatch (env.attempt i) flags cfg caPool with
    | ok cfg' =>
      rw [enrollLoop_ok env flags cfg caPool allowed sf i fuel cfg' hd]
      simp [poolSnaps]
    | panicked m =>
      rw [enrollLoop_panic env flags cfg caPool allowed sf i fuel m hd]
      simp [poolSnaps]
    | err e =>
      cases e with
      | msg s =>
        rw [enrollLoop_msg env flags cfg caPool allowed sf i fuel s hd]
        simp [poolSnaps]
      | transport te =>
        cases hcond : te.unknownAuthority && sf with
        | false =>
          rw [enrollLoop_stop env flags cfg caPool allowed sf i fuel te hd hcond]
          simp [poolSnaps]
        | true =>
          obtain ⟨hua, hsf⟩ := Bool.and_eq_true_iff.mp hcond
          subst hsf
          cases hsig : flags.token.signatureCert with
          | none =>
            rw [enrollLoop_sigNil env flags cfg caPool allowed i fuel te hd hua hsig]
            simp [poolSnaps]
          | some sc =>
            cases hf : FetchCertificates env.fetch cfg.ztAPI (CertPool.addCert [] sc) with
            | error m =>
              rw [enrollLoop_fetchPanic env flags cfg caPool allowed i fuel te sc m
                hd hua hsig hf]
              simp [poolSnaps]
            | ok cs =>
              rw [enrollLoop_retry env flags cfg caPool allowed i fuel te sc cs
                hd hua hsig hf]
              simp only [poolSnaps, List.filterMap_cons]
              simp only [List.pairwise_cons]
              constructor
              · intro q hq
                have hsub := poolSnaps_loop_ge env flags cfg
                  (cs.foldl CertPool.addCert caPool) (allowed ++ cs) false (i + 1) fuel q
                  (by simpa [poolSnaps] using hq)
                exact (subset_foldl_addCert cs caPool).trans hsub
              · have := ih (cs.foldl CertPool.addCert caPool) (allowed ++ cs) false (i + 1)
                simpa [poolSnaps] using this

/-- Every allowed-certificate snapshot in the loop's trace contains the list
the loop was entered with. -/
theorem allowedSnaps_loop_ge (env : EnrollEnv) (flags : EnrollmentFlags) (cfg : Config)
    (caPool : CertPool) (allowed : List Cert) (sf : Bool) (i fuel : Nat) :
    ∀ q ∈ allowedSnaps (enrollLoop env flags cfg caPool allowed sf i fuel).2,
      allowed ⊆ q := by
  induction fuel generalizing caPool allowed sf i with
  | zero => simp [enrollLoop, allowedSnaps]
  | succ fuel ih =>
    cases hd : dispatch (env.attempt i) flags cfg caPool with
    | ok cfg' =>
      rw [enrollLoop_ok env flags cfg caPool allowed sf i fuel cfg' hd]
      simp [allowedSnaps]
    | panicked m =>
      rw [enrollLoop_panic env flags cfg caPool allowed sf i fuel m hd]
      simp [allowedSnaps]
    | err e =>
      cases e with
      | msg s =>
        rw [enrollLoop_msg env flags cfg caPool allowed sf i fuel s hd]
        simp [allowedSnaps]
      | transport te =>
        cases hcond : te.unknownAuthority && sf with
        | false =>
          rw [enrollLoop_stop env flags cfg caPool allowed sf i fuel te hd hcond]
          simp [allowedSnaps]
        | true =>
          obtain ⟨hua, hsf⟩ := Bool.and_eq_true_iff.mp hcond
          subst hsf
          cases hsig : flags.token.signatureCert with
          | none =>
            rw [enrollLoop_sigNil env flags cfg caPool allowed i fuel te hd hua hsig]
            simp [allowedSnaps]
          | some sc =>
            cases hf : FetchCertificates env.fetch cfg.ztAPI (CertPool.addCert [] sc) with
            | error m =>
              rw [enrollLoop_fetchPanic env flags cfg caPool allowed i fuel te sc m
                hd hua hsig hf]
              simp [allowedSnaps]
            | ok cs =>
              rw [enrollLoop_retry env flags cfg caPool allowed i fuel te sc cs
                hd hua hsig hf]
              intro q hq
              simp only [allowedSnaps, List.filterMap_cons] at hq
              simp at hq
              rcases hq with hq | hq
              · subst hq; exact List.Subset.refl _
              · have hsub := ih (cs.foldl CertPool.addCert caPool) (allowed ++ cs)
                  false (i + 1) q (by simpa [allowedSnaps] using hq)
                exact (List.subset_append_left allowed cs).trans hsub

/-- The allowed-certificate snapshots of the loop's trace grow
monotonically. -/
theorem allowedSnaps_loop_pairwise (env : EnrollEnv) (flags : EnrollmentFlags)
    (cfg : Config) (caPool : CertPool) (allowed : List Cert) (sf : Bool)
    (i fuel : Nat) :
    List.Pairwise (· ⊆ ·)
      (allowedSnaps (enrollLoop env flags cfg caPool allowed sf i fuel).2) := by
  induction fuel generalizing caPool allowed sf i with
  | zero => simp [enrollLoop, allowedSnaps]
  | succ fuel ih =>
    cases hd : dispatch (env.attempt i) flags cfg caPool with
    | ok cfg' =>
      rw [enrollLoop_ok env flags cfg caPool allowed sf i fuel cfg' hd]
      simp [allowedSnaps]
    | panicked m =>
      rw [enrollLoop_panic env flags cfg caPool allowed sf i fuel m hd]
      simp [allowedSnaps]
    | err e =>
      cases e with
      | msg s =>
        rw [enrollLoop_msg env flags cfg caPool allowed sf i fuel s hd]
        simp [allowedSnaps]
      | transport te =>
        cases hcond : te.unknownAuthority && sf with
        | false =>
          rw [enrollLoop_stop env flags cfg caPool allowed sf i fuel te hd hcond]
          simp [allowedSnaps]
        | true =>
          obtain ⟨hua, hsf⟩ := Bool.and_eq_true_iff.mp hcond
          subst hsf
          cases hsig : flags.token.signatureCert with
          | none =>
            rw [enrollLoop_sigNil env flags cfg caPool allowed i fuel te hd hua hsig]
            simp [allowedSnaps]
          | some sc =>
            cases hf : FetchCertificates env.fetch cfg.ztAPI (CertPool.addCert [] sc) with
            | error m =>
              rw [enrollLoop_fetchPanic env flags cfg caPool allowed i fuel te sc m
                hd hua hsig hf]
              simp [allowedSnaps]
            | ok cs =>
              rw [enrollLoop_retry env flags cfg caPool allowed i fuel te sc cs
                hd hua hsig hf]
              simp only [allowedSnaps, List.filterMap_cons]
              simp only [List.pairwise_cons]
              constructor
              · intro q hq
                have hsub := allowedSnaps_loop_ge env flags cfg
                  (cs.foldl CertPool.addCert caPool) (allowed ++ cs) false (i + 1) fuel q
                  (by simpa [allowedSnaps] using hq)
                exact (List.subset_append_left allowed cs).trans hsub
              · have := ih (cs.foldl CertPool.addCert caPool) (allowed ++ cs) false (i + 1)
                simpa [allowedSnaps] using this

/-- Shape of the configuration produced by the preparation prefix: the CA
field is still empty and the certificate field is either empty or the
caller-supplied file reference. -/
theorem keyPrep_ok_shape (env : EnrollEnv) (flags : EnrollmentFlags)
    (cfg cfg' : Config) (h : keyPrep env flags cfg = .ok cfg') :
    cfg'.id.cert = cfg.id.cert ∧ cfg'.id.ca = cfg.id.ca ∧ cfg'.ztAPI = cfg.ztAPI := by
  unfold keyPrep at h
  repeat' split at h
  all_goals first
    | (injection h with h2
       subst h2
       simp)
    | (injection h)

theorem prep_ok_shape (env : EnrollEnv) (flags : EnrollmentFlags) (cfg : Config)
    (caPool : CertPool) (allowed : List Cert)
    (h : prep env flags = .ok (cfg, caPool, allowed)) :
    cfg.id.ca = "" ∧
      (cfg.id.cert = "" ∨ cfg.id.cert = "file://" ++ env.absCert) := by
  unfold prep at h
  simp only [] at h
  cases hk : keyPrep env flags
      { ztAPI := flags.token.issuer, id := { key := "", cert := "", ca := "" } } with
  | error r => rw [hk] at h; simp at h
  | ok cfg1 =>
    rw [hk] at h
    have hs := keyPrep_ok_shape env flags _ cfg1 hk
    simp only [Except.ok.injEq, Prod.mk.injEq] at h
    obtain ⟨h1, _, _⟩ := h
    subst h1
    split
    all_goals simp [hs.1, hs.2.1]

/-- `String.data` distributes over append. -/
theorem string_data_append (a b : String) : (a ++ b).data = a.data ++ b.data := by
  cases a; cases b; rfl

/-- A character list is a prefix of itself followed by anything. -/
theorem strStartsWith_self (p rest : List Char) :
    strStartsWith p (p ++ rest) = true := by
  induction p with
  | nil => rfl
  | cons c cs ih => simp [strStartsWith, ih]

/-- Any `enroll error: `-prefixed message is an `EnrollmentRejected`-style
outcome. -/
theorem isRejectedStyle_enrollErr (x : String) :
    isRejectedStyle (.err (.msg ("enroll error: " ++ x))) = true := by
  simp only [isRejectedStyle, Bool.or_eq_true]
  left
  rw [string_data_append]
  exact strStartsWith_self _ _

/-- Key preparation never produces a configuration together with an error:
its error outcomes carry no configuration at all. -/
theorem keyPrep_error_shape (env : EnrollEnv) (flags : EnrollmentFlags)
    (cfg : Config) (r : EnrollResult) (h : keyPrep env flags cfg = .error r) :
    retCfgKey r = none := by
  unfold keyPrep at h
  repeat' split at h
  all_goals first
    | (injection h with h2
       subst h2
       simp [retCfgKey])
    | (injection h)

/-- The preparation prefix never produces a configuration together with an
error. -/
theorem prep_error_shape (env : EnrollEnv) (flags : EnrollmentFlags)
    (r : EnrollResult) (h : prep env flags = .error r) :
    retCfgKey r = none := by
  unfold prep at h
  simp only [] at h
  cases hk : keyPrep env flags
      { ztAPI := flags.token.issuer, id := { key := "", cert := "", ca := "" } } with
  | error r0 =>
    rw [hk] at h
    injection h with h2
    subst h2
    exact keyPrep_error_shape env flags _ r0 hk
  | ok cfg1 =>
    rw [hk] at h
    simp at h

/-- A non-blank key reference whose `os.Stat` reports a missing file is
stored verbatim as the key field. -/
theorem keyPrep_engine (env : EnrollEnv) (flags : EnrollmentFlags) (cfg : Config)
    (hkf : trimSpace flags.keyFile ≠ "") (hstat : env.keyStat = .errNotExist) :
    keyPrep env flags cfg =
      .ok { cfg with id := { cfg.id with key := flags.keyFile } } := by
  unfold keyPrep
  rw [if_pos hkf, hstat]

/-! ## Claim theorems -/

/-- C8: for every token whose decoded claims carry an empty issuer field,
`ValidateToken` fails with the issuer-invalid error before any network call
is made — the trace of network events is empty, so the unverified
leaf-certificate fetch is never invoked. -/
theorem validateToken_empty_issuer (env : ValidateEnv) (c : EnrollmentClaims)
    (h : c.issuer = "") :
    ValidateToken env (.withClaims (.val c)) =
      (.error (.msg "could not validate token, issues is empty"), []) := by
  simp [ValidateToken, h]

/-- C8 witness: the empty-issuer claims at a concrete validation
environment. -/
theorem validateToken_empty_issuer_witness :
    claimsC8.issuer = "" ∧
      ValidateToken venvC8 (.withClaims (.val claimsC8)) =
        (.error (.msg "could not validate token, issues is empty"), []) :=
  ⟨rfl, validateToken_empty_issuer venvC8 claimsC8 rfl⟩

/-- C7 (code bug): when no key reference is supplied and fresh P-384 key
generation fails, `Enroll` does not return a `KeyPreparationFailed` error:
it panics with a nil pointer dereference inside `x509.MarshalECPrivateKey`
(enroll.go:135), which is evaluated before the error check at
enroll.go:138.  The empty trace confirms that no network call and no retry
happen. -/
theorem generateKey_failure_panics :
    Enroll envC7 flagsC1 =
      (.panicked "runtime error: invalid memory address or nil pointer dereference",
        []) := rfl

/-- C6 (code bug): a non-success JSON error body that carries
`error.message` but no `error.code` makes `enrollOTT` panic on the
`.(string)` type assertion at enroll.go:292, and a parseable JSON body
without `error.code` makes `enrollCAAuto` panic at enroll.go:390 — instead
of the descriptive or raw-status error the specification requires. -/
theorem errorBody_missing_code_panics :
    enrollOTT ottC6 cfgC4 [] = .panicked interfaceConversionMsg ∧
    enrollCAAuto autoC6 flagsC4 cfgC4 [] = .panicked interfaceConversionMsg :=
  ⟨rfl, rfl⟩

/-- C9: within a single `Enroll` run the trust pool and the parallel
allowed-certificate list only grow: along the run's trace, every snapshot is
a superset of every earlier snapshot. -/
theorem enroll_trustpool_monotone (env : EnrollEnv) (flags : EnrollmentFlags) :
    List.Pairwise (· ⊆ ·) (poolSnaps (Enroll env flags).2) ∧
    List.Pairwise (· ⊆ ·) (allowedSnaps (Enroll env flags).2) := by
  unfold Enroll
  cases hp : prep env flags with
  | error r => simp [poolSnaps, allowedSnaps]
  | ok v =>
    obtain ⟨cfg, caPool, allowed⟩ := v
    exact ⟨poolSnaps_loop_pairwise env flags cfg caPool allowed true 0 2,
      allowedSnaps_loop_pairwise env flags cfg caPool allowed true 0 2⟩

/-- C2: every enumerated failure of the CA-bundle fetch — network error,
body-read error, non-2xx status, nil base64 decode, PKCS7 parse failure —
yields the empty certificate sequence; the function returns normally rather
than propagating an error (the `urlParseOk` hypothesis excludes the distinct
`log.Panic` on an unparseable base URL, which is not one of the enumerated
failure modes and cannot occur for an issuer URL that was already parsed
during token validation). -/
theorem fetchCertificates_failure_yields_empty (fenv : FetchEnv)
    (urlRoot : String) (root : CertPool)
    (hurl : fenv.urlParseOk = true) (hfail : fetchFailureMode fenv = true) :
    FetchCertificates fenv urlRoot root = .ok [] := by
  unfold FetchCertificates
  rw [hurl]
  cases hget : fenv.get with
  | error m => simp
  | ok resp =>
    unfold fetchFailureMode at hfail
    rw [hget] at hfail
    simp only []
    obtain ⟨sc, re, b64, pk⟩ := resp
    cases re with
    | true => simp
    | false =>
      simp only [Bool.false_or] at hfail
      by_cases h2xx : 200 ≤ sc ∧ sc < 300
      · simp only [h2xx, if_true, if_false, Bool.if_true_left]
        cases b64 with
        | none => simp
        | some bs =>
          cases pk with
          | none => simp
          | some certs =>
            exfalso
            simp [h2xx.1, h2xx.2] at hfail
      · simp [h2xx]

/-- C2 witness: a fetch whose GET fails with a network error returns the
empty sequence. -/
theorem fetchCertificates_failure_yields_empty_witness :
    fenvC2.urlParseOk = true ∧ fetchFailureMode fenvC2 = true ∧
      FetchCertificates fenvC2 "https://ctrl.example" [] = .ok [] :=
  ⟨rfl, rfl,
    fetchCertificates_failure_yields_empty fenvC2 "https://ctrl.example" [] rfl rfl⟩

/-- C4: for each of the three strategies, an HTTP 200 response (with a
readable body for the token-based strategy, which reads the body before
checking the status) yields a success outcome; for the token-based strategy
the response body becomes the issued `pem:` certificate of the resulting
configuration. -/
theorem strategies_200_success (oenv : OttEnv) (cenv : CaEnv) (aenv : CaAutoEnv)
    (flags : EnrollmentFlags) (cfgO cfgC cfgA : Config)
    (poolO poolC poolA : CertPool) (resp respC respA : HttpResp)
    (ho1 : oenv.loadKeyErr = none) (ho2 : oenv.csrErr = none)
    (ho3 : oenv.post = .ok resp) (ho4 : resp.readErr = false)
    (ho5 : resp.statusCode = 200)
    (hc1 : cenv.loadIdentityErr = none) (hc2 : cenv.post = .ok respC)
    (hc3 : respC.statusCode = 200)
    (ha1 : aenv.loadIdentityErr = none) (ha2 : aenv.post = .ok respA)
    (ha3 : respA.statusCode = 200) :
    enrollOTT oenv cfgO poolO =
      .ok { cfgO with id := { cfgO.id with cert := "pem:" ++ resp.body.raw } } ∧
    enrollCA cenv cfgC poolC = .ok () ∧
    enrollCAAuto aenv flags cfgA poolA = .ok () := by
  refine ⟨?_, ?_, ?_⟩
  · simp [enrollOTT, ho1, ho2, ho3, ho4, ho5]
  · simp [enrollCA, hc1, hc2, hc3]
  · simp [enrollCAAuto, ha1, ha2, ha3]

/-- C4 witness: concrete 200 responses for all three strategies. -/
theorem strategies_200_success_witness :
    respOkC4.statusCode = 200 ∧
    enrollOTT ottC4 cfgC4 [] =
      .ok { cfgC4 with id := { cfgC4.id with cert := "pem:" ++ respOkC4.body.raw } } ∧
    enrollCA caC4 cfgC4 [] = .ok () ∧
    enrollCAAuto autoC4 flagsC4 cfgC4 [] = .ok () := by
  have h := strategies_200_success ottC4 caC4 autoC4 flagsC4 cfgC4 cfgC4 cfgC4
    [] [] [] respOkC4 respOkC4 respOkC4 rfl rfl rfl rfl rfl rfl rfl rfl rfl rfl rfl
  exact ⟨rfl, h.1, h.2.1, h.2.2⟩

/-- C10: when a non-blank key reference is supplied but `os.Stat` reports
that no file exists at that path, key preparation succeeds with the supplied
string stored verbatim (no absolutization, no `file://` prefix), and every
configuration `Enroll` subsequently returns still carries that verbatim key
reference. -/
theorem missing_keyfile_engine_reference (env : EnrollEnv)
    (flags : EnrollmentFlags)
    (hkf : trimSpace flags.keyFile ≠ "") (hstat : env.keyStat = .errNotExist) :
    prepKey env flags = some flags.keyFile ∧
      (retCfgKey (Enroll env flags).1 = some flags.keyFile ∨
        retCfgKey (Enroll env flags).1 = none) := by
  have hkp := keyPrep_engine env flags
    { ztAPI := flags.token.issuer, id := { key := "", cert := "", ca := "" } } hkf hstat
  have hprep : ∃ cfg2 pool added,
      prep env flags = .ok (cfg2, pool, added) ∧ cfg2.id.key = flags.keyFile := by
    unfold prep
    simp only []
    rw [hkp]
    refine ⟨_, _, _, rfl, ?_⟩
    split <;> simp
  obtain ⟨cfg2, pool, added, hp, hkey⟩ := hprep
  constructor
  · unfold prepKey
    rw [hp]
    simp [hkey]
  · unfold Enroll
    rw [hp]
    have hl := loop_ret_key env flags cfg2 pool added true 0 2
    rw [hkey] at hl
    exact hl

/-- C10 witness: the engine reference `pkcs11:slot0:key` with no file at
that path. -/
theorem missing_keyfile_engine_reference_witness :
    trimSpace flagsC10.keyFile ≠ "" ∧ envC10.keyStat = .errNotExist ∧
      (prepKey envC10 flagsC10 = some flagsC10.keyFile ∧
        (retCfgKey (Enroll envC10 flagsC10).1 = some flagsC10.keyFile ∨
          retCfgKey (Enroll envC10 flagsC10).1 = none)) :=
  ⟨by decide, rfl,
    missing_keyfile_engine_reference envC10 flagsC10 (by decide) rfl⟩

/-- C3 counterexample: an `Enroll` run that terminates with a classified
error (unsupported enrollment method) nevertheless hands the caller a
partially populated configuration — its key field holds the freshly
prepared private key while its certificate field is empty — together with
the error, contradicting the claim that the result is either a complete
configuration or the error alone. -/
theorem enroll_partial_config_with_error_cex :
    (Enroll envC3 flagsC3).1 =
      .ret (some cfgC3) (some (.msg "enrollment method 'bogus' is not supported")) ∧
    cfgC3.id.key = "pem:K3" ∧ cfgC3.id.cert = "" := ⟨rfl, rfl, rfl⟩

/-- C3 amended: whenever `Enroll` returns a configuration together with an
error, that configuration carries no CA bundle and no server-issued
certificate — its certificate field is empty or the caller-supplied
`file://` reference; only key-preparation and PEM-marshal failures return
the error alone. -/
theorem enroll_error_no_issued_material (env : EnrollEnv)
    (flags : EnrollmentFlags) (cfg : Config) (e : GoErr)
    (h : (Enroll env flags).1 = .ret (some cfg) (some e)) :
    cfg.id.ca = "" ∧
      (cfg.id.cert = "" ∨ cfg.id.cert = "file://" ++ env.absCert) := by
  unfold Enroll at h
  cases hp : prep env flags with
  | error r =>
    rw [hp] at h
    have hr := prep_error_shape env flags r hp
    rw [show (r, ([] : List Event)).1 = r from rfl] at h
    rw [h] at hr
    simp [retCfgKey] at hr
  | ok v =>
    obtain ⟨cfg1, caPool, allowed⟩ := v
    rw [hp] at h
    have hc := loop_ret_cfg env flags cfg1 caPool allowed true 0 2 cfg e h
    subst hc
    exact prep_ok_shape env flags _ caPool allowed hp

/-- C3 amended witness: the unsupported-method run returns the error with a
configuration that has no CA bundle and no certificate. -/
theorem enroll_error_no_issued_material_witness :
    (Enroll envC3 flagsC3).1 =
      .ret (some cfgC3) (some (.msg "enrollment method 'bogus' is not supported")) ∧
    (cfgC3.id.ca = "" ∧
      (cfgC3.id.cert = "" ∨ cfgC3.id.cert = "file://" ++ envC3.absCert)) :=
  ⟨rfl, enroll_error_no_issued_material envC3 flagsC3 cfgC3
    (.msg "enrollment method 'bogus' is not supported") rfl⟩

/-- C5 counterexample: `enrollCAAuto` answering a 500 whose body parses as
JSON without an `error.code` string does not produce an
`EnrollmentRejected`-style error — it panics on the nil `.(string)` type
assertion, so "every response status other than 200 and 409 produces an
EnrollmentRejected-style error" is false as stated. -/
theorem enrollCAAuto_non409_panic_cex :
    respC5cex.statusCode = 500 ∧
    enrollCAAuto aenvC5cex flagsC4 cfgC4 [] = .panicked interfaceConversionMsg ∧
    isRejectedStyle (enrollCAAuto aenvC5cex flagsC4 cfgC4 []) = false :=
  ⟨rfl, rfl, rfl⟩

/-- C5 amended: for both CA-based strategies the `AlreadyEnrolled` error is
produced if and only if the server responds 409, and 409 never produces
success; every other non-200 status produces an `EnrollmentRejected`-style
error for `enrollCA`, while for `enrollCAAuto` it produces either such an
error or a panic (when the response body parses as JSON lacking string
`error.code`/`error.message` fields). -/
theorem ca_alreadyEnrolled_iff_409 (cenv : CaEnv) (aenv : CaAutoEnv)
    (flags : EnrollmentFlags) (cfgC cfgA : Config) (poolC poolA : CertPool)
    (resp respA : HttpResp)
    (hc1 : cenv.loadIdentityErr = none) (hc2 : cenv.post = .ok resp)
    (ha1 : aenv.loadIdentityErr = none) (ha2 : aenv.post = .ok respA) :
    (enrollCA cenv cfgC poolC = .err (.msg alreadyEnrolledMsg) ↔
      resp.statusCode = 409) ∧
    (resp.statusCode = 409 → enrollCA cenv cfgC poolC ≠ .ok ()) ∧
    (resp.statusCode ≠ 200 → resp.statusCode ≠ 409 →
      enrollCA cenv cfgC poolC = .err (.msg ("enroll error: " ++ resp.status))) ∧
    (enrollCAAuto aenv flags cfgA poolA = .err (.msg alreadyEnrolledMsg) ↔
      respA.statusCode = 409) ∧
    (respA.statusCode = 409 → enrollCAAuto aenv flags cfgA poolA ≠ .ok ()) ∧
    (respA.statusCode ≠ 200 → respA.statusCode ≠ 409 →
      (isRejectedStyle (enrollCAAuto aenv flags cfgA poolA) = true ∨
        enrollCAAuto aenv flags cfgA poolA = .panicked interfaceConversionMsg)) := by
  refine ⟨⟨?_, ?_⟩, ?_, ?_, ⟨?_, ?_⟩, ?_, ?_⟩
  · intro h
    by_cases h409 : resp.statusCode = 409
    · exact h409
    · exfalso
      by_cases h200 : resp.statusCode = 200
      · simp [enrollCA, hc1, hc2, h200] at h
      · simp [enrollCA, hc1, hc2, h200, h409, enroll_error_ne_already] at h
  · intro h409
    simp [enrollCA, hc1, hc2, h409]
  · intro h409 hok
    simp [enrollCA, hc1, hc2, h409] at hok
  · intro h200 h409
    simp [enrollCA, hc1, hc2, h200, h409]
  · intro h
    by_cases h409 : respA.statusCode = 409
    · exact h409
    · exfalso
      by_cases h200 : respA.statusCode = 200
      · simp [enrollCAAuto, ha1, ha2, h200] at h
      · cases hre : respA.readErr with
        | true =>
          simp [enrollCAAuto, ha1, ha2, h200, h409, hre,
            enroll_error_ne_already] at h
        | false =>
          cases hparsed : respA.body.parsed with
          | none =>
            simp [enrollCAAuto, ha1, ha2, h200, h409, hre, hparsed,
              enroll_error_ne_already] at h
          | some j =>
            cases hdc : dataString (j.search ["error", "code"]) with
            | none =>
              simp [enrollCAAuto, ha1, ha2, h200, h409, hre, hparsed, hdc] at h
            | some code =>
              cases hdm : dataString (j.search ["error", "message"]) with
              | none =>
                simp [enrollCAAuto, ha1, ha2, h200, h409, hre, hparsed,
                  hdc, hdm] at h
              | some message =>
                simp [enrollCAAuto, ha1, ha2, h200, h409, hre, hparsed,
                  hdc, hdm, enroll_error_ne_already] at h
  · intro h409
    simp [enrollCAAuto, ha1, ha2, h409]
  · intro h409 hok
    simp [enrollCAAuto, ha1, ha2, h409] at hok
  · intro h200 h409
    cases hre : respA.readErr with
    | true =>
      have hres : enrollCAAuto aenv flags cfgA poolA =
          .err (.msg ("enroll error: " ++ respA.status)) := by
        simp [enrollCAAuto, ha1, ha2, h200, h409, hre]
      left
      rw [hres]
      exact isRejectedStyle_enrollErr respA.status
    | false =>
      cases hparsed : respA.body.parsed with
      | none =>
        have hres : enrollCAAuto aenv flags cfgA poolA =
            .err (.msg ("enroll error: " ++ (respA.status ++ ": " ++ respA.body.raw))) := by
          simp [enrollCAAuto, ha1, ha2, h200, h409, hre, hparsed]
        left
        rw [hres]
        exact isRejectedStyle_enrollErr _
      | some j =>
        cases hdc : dataString (j.search ["error", "code"]) with
        | none =>
          right
          simp [enrollCAAuto, ha1, ha2, h200, h409, hre, hparsed, hdc]
        | some code =>
          cases hdm : dataString (j.search ["error", "message"]) with
          | none =>
            right
            simp [enrollCAAuto, ha1, ha2, h200, h409, hre, hparsed, hdc, hdm]
          | some message =>
            have hres : enrollCAAuto aenv flags cfgA poolA =
                .err (.msg ("enroll error: " ++
                  (respA.status ++ ": " ++ code ++ ": " ++ message))) := by
              simp [enrollCAAuto, ha1, ha2, h200, h409, hre, hparsed, hdc, hdm]
            left
            rw [hres]
            exact isRejectedStyle_enrollErr _

/-- C5 witness: a 409 answer produces `AlreadyEnrolled` for both CA-based
strategies. -/
theorem ca_alreadyEnrolled_iff_409_witness :
    resp409C5.statusCode = 409 ∧
    enrollCA cenvC5 cfgC4 [] = .err (.msg alreadyEnrolledMsg) ∧
    enrollCAAuto aenvC5 flagsC4 cfgC4 [] = .err (.msg alreadyEnrolledMsg) := by
  have h := ca_alreadyEnrolled_iff_409 cenvC5 aenvC5 flagsC4 cfgC4 cfgC4 [] []
    resp409C5 resp409C5 rfl rfl rfl rfl
  exact ⟨rfl, h.1.mpr rfl, h.2.2.2.1.mpr rfl⟩

/-- C1: when the first strategy attempt fails with an unknown-authority
transport error, `Enroll` performs exactly one CA-bundle fetch — anchored to
a root pool holding only the token's `signatureCert` — and exactly one retry
of the same strategy dispatch; when the retried attempt fails again with an
unknown-authority error, that second error is returned to the caller
verbatim and the trace shows no further bootstrap or retry (one fetch, two
attempts).  The unconditional bound "bootstrap attempts per run ≤ 1" is
`enroll_countFetch_le_one`. -/
theorem enroll_bootstrap_retry_once (env : EnrollEnv) (flags : EnrollmentFlags)
    (cfg : Config) (caPool : CertPool) (allowed : List Cert)
    (te te2 : TransportErr) (sc : Cert) (cs : List Cert)
    (hprep : prep env flags = .ok (cfg, caPool, allowed))
    (hsig : flags.token.signatureCert = some sc)
    (hcs : FetchCertificates env.fetch cfg.ztAPI (CertPool.addCert [] sc) = .ok cs)
    (h0 : dispatch (env.attempt 0) flags cfg caPool = .err (.transport te))
    (hua : te.unknownAuthority = true)
    (h1 : dispatch (env.attempt 1) flags cfg (cs.foldl CertPool.addCert caPool) =
      .err (.transport te2))
    (hua2 : te2.unknownAuthority = true) :
    (Enroll env flags).2 =
      [.attempt 0 caPool allowed, .fetch (CertPool.addCert [] sc) cs,
        .attempt 1 (cs.foldl CertPool.addCert caPool) (allowed ++ cs)] ∧
    countFetch (Enroll env flags).2 = 1 ∧
    (Enroll env flags).1 = .ret (some cfg) (some (.transport te2)) := by
  have _ := hua2
  have hE : Enroll env flags = enrollLoop env flags cfg caPool allowed true 0 2 := by
    unfold Enroll
    rw [hprep]
  rw [hE]
  rw [show (2 : Nat) = 1 + 1 from rfl,
    enrollLoop_retry env flags cfg caPool allowed 0 1 te sc cs h0 hua hsig hcs]
  rw [show (1 : Nat) = 0 + 1 from rfl,
    enrollLoop_stop env flags cfg (cs.foldl CertPool.addCert caPool)
      (allowed ++ cs) false 1 0 te2 h1 (by simp)]
  refine ⟨rfl, ?_, rfl⟩
  simp [countFetch]

/-- C1 witness: a run whose two attempts both fail with unknown-authority
errors; the trace shows one attempt, one anchored fetch, one retry, and the
second error is returned verbatim. -/
theorem enroll_bootstrap_retry_once_witness :
    (Enroll envC1 flagsC1).2 =
      [.attempt 0 [] [], .fetch (CertPool.addCert [] certF) [fetchedF],
        .attempt 1 ([fetchedF].foldl CertPool.addCert []) ([] ++ [fetchedF])] ∧
    countFetch (Enroll envC1 flagsC1).2 = 1 ∧
    (Enroll envC1 flagsC1).1 = .ret (some cfgC1) (some (.transport uaErrF)) :=
  enroll_bootstrap_retry_once envC1 flagsC1 cfgC1 [] [] uaErrF uaErrF certF
    [fetchedF] rfl rfl rfl rfl rfl rfl rfl

end ZitiEnroll
